import Mathlib

namespace Peegees

/-! Shallow embedding of the content pipeline of src/src/lib/content.ts and of the
Markdown render pipeline configured in the MarkdownRenderer component.
Strings are modelled as their character lists; JavaScript regular-expression
passes are modelled by explicit recursions over those lists. The character-level
case mapping and whitespace class are the ASCII/Unicode sets the JavaScript
string operations use on the inputs occurring in this development. -/

/-- Whitespace class of the JavaScript regular-expression escape for whitespace
    (space, tab, line and page separators, and the Unicode space characters). -/
def isJsWhitespace (c : Char) : Bool :=
  c = ' ' || c = '\t' || c = '\n' || c = '\r' ||
  c.toNat = 0x0b || c.toNat = 0x0c || c.toNat = 0xa0 || c.toNat = 0x1680 ||
  (0x2000 ≤ c.toNat && c.toNat ≤ 0x200a) ||
  c.toNat = 0x2028 || c.toNat = 0x2029 || c.toNat = 0x202f ||
  c.toNat = 0x205f || c.toNat = 0x3000 || c.toNat = 0xfeff

/-- Character class kept by the strip pass of generateHeadingId:
    lowercase ASCII letters, digits, whitespace and hyphen. -/
def isSlugKeep (c : Char) : Bool :=
  ('a' ≤ c && c ≤ 'z') || ('0' ≤ c && c ≤ '9') || isJsWhitespace c || c = '-'

/-- ASCII case lowering, the fragment of the JavaScript toLowerCase relevant
    after the strip pass removes every character outside the kept class. -/
def jsToLowerChar (c : Char) : Char :=
  if 'A' ≤ c && c ≤ 'Z' then Char.ofNat (c.toNat + 32) else c

/-- Replacement of every maximal whitespace run by a single hyphen
    (the second replace pass of generateHeadingId). The flag records whether
    the previous character belonged to a whitespace run. -/
def collapseWsAux : Bool → List Char → List Char
  | _, [] => []
  | afterWs, c :: cs =>
    if isJsWhitespace c then
      if afterWs then collapseWsAux true cs else '-' :: collapseWsAux true cs
    else c :: collapseWsAux false cs

/-- Replacement of every maximal hyphen run by a single hyphen
    (the third replace pass of generateHeadingId). -/
def collapseHyphensAux : Bool → List Char → List Char
  | _, [] => []
  | afterH, c :: cs =>
    if c = '-' then
      if afterH then collapseHyphensAux true cs else '-' :: collapseHyphensAux true cs
    else c :: collapseHyphensAux false cs

/-- Removal of one leading hyphen, if present. -/
def removeOneLeadingHyphen : List Char → List Char
  | [] => []
  | c :: t => if c = '-' then t else c :: t

/-- Removal of one trailing hyphen, if present. -/
def removeOneTrailingHyphen : List Char → List Char
  | [] => []
  | [c] => if c = '-' then [] else [c]
  | c :: d :: t => c :: removeOneTrailingHyphen (d :: t)

/-- The final replace pass of generateHeadingId: the anchored alternation
    removes at most one leading and one trailing hyphen. -/
def trimHyphenEnds (l : List Char) : List Char :=
  removeOneTrailingHyphen (removeOneLeadingHyphen l)

/-- Character-list form of generateHeadingId from src/src/lib/content.ts:
    lowercase, strip characters outside the kept class, replace whitespace runs
    with single hyphens, collapse hyphen runs, remove a leading and a trailing
    hyphen. -/
def generateHeadingIdList (l : List Char) : List Char :=
  trimHyphenEnds (collapseHyphensAux false
    (collapseWsAux false ((l.map jsToLowerChar).filter isSlugKeep)))

/-- generateHeadingId from src/src/lib/content.ts. -/
def generateHeadingId (s : String) : String :=
  String.mk (generateHeadingIdList s.data)

/-- Removal of every trailing hyphen. -/
def dropTrailingHyphens : List Char → List Char
  | [] => []
  | c :: t =>
    match dropTrailingHyphens t with
    | [] => if c = '-' then [] else [c]
    | r => c :: r

/-- Modelled from the spec: the canonical slug function of the specification
    (lowercase, strip characters outside the kept class, collapse whitespace
    runs to single hyphens, trim leading and trailing hyphens). Per the
    specification this same function is the render pipeline's heading-id stage;
    that stage itself is third-party code not present in the repository. -/
def canonicalSlugList (l : List Char) : List Char :=
  dropTrailingHyphens
    ((collapseWsAux false ((l.map jsToLowerChar).filter isSlugKeep)).dropWhile (· = '-'))

/-- Modelled from the spec: string form of the canonical slug function. -/
def canonicalSlug (s : String) : String :=
  String.mk (canonicalSlugList s.data)

/-- A flat heading produced by the extraction scan, before tree building. -/
structure FlatHeading where
  id : String
  depth : Nat
  text : String
deriving Repr, DecidableEq

/-- A node of the heading tree (TOCHeading of src/src/types/content.ts). -/
inductive TOCHeading where
  | mk (id : String) (depth : Nat) (text : String) (children : List TOCHeading)
deriving Repr

/-- Depth of a tree node. -/
def TOCHeading.depth : TOCHeading → Nat
  | .mk _ d _ _ => d

/-- Splitting a character list at newline characters. -/
def splitOnNl : List Char → List (List Char)
  | [] => [[]]
  | '\n' :: t => [] :: splitOnNl t
  | c :: t =>
    match splitOnNl t with
    | [] => [[c]]
    | h :: r => (c :: h) :: r

/-- JavaScript string trim: whitespace removed from both ends. -/
def jsTrimList (l : List Char) : List Char :=
  (((l.dropWhile isJsWhitespace).reverse).dropWhile isJsWhitespace).reverse

/-- The per-line match of the heading scan of extractHeadings: two to four
    leading hash marks, then at least one whitespace character, then at least
    one further character; the captured text is trimmed. -/
def lineHeading (line : List Char) : Option FlatHeading :=
  let k := (line.takeWhile (· = '#')).length
  let rest := line.dropWhile (· = '#')
  if 2 ≤ k && k ≤ 4 then
    match rest with
    | c :: _ :: _ =>
      if isJsWhitespace c then
        let text := String.mk (jsTrimList rest)
        some ⟨generateHeadingId text, k, text⟩
      else none
    | _ => none
  else none

/-- The flat heading sequence scanned by extractHeadings before tree building. -/
def extractFlatHeadings (md : String) : List FlatHeading :=
  (splitOnNl md.data).filterMap lineHeading

/-- A stack entry of the tree builder: the heading together with the children
    collected for it so far. -/
def HeadingStackEntry : Type := FlatHeading × List TOCHeading

/-- The tree node closed from a stack entry: the heading together with the
    children collected while the entry was open. -/
def closeEntry (e : HeadingStackEntry) : TOCHeading :=
  TOCHeading.mk e.1.id e.1.depth e.1.text e.2

/-- Closing of stack entries whose depth is at least the incoming depth: each
    closed node is attached as last child of the entry below it, or as a new
    root when the stack has emptied. The stack top is passed separately so the
    recursion is structural in the rest of the stack. -/
def popHeadingStack (d : Nat) (top : HeadingStackEntry) :
    List HeadingStackEntry → List TOCHeading → List HeadingStackEntry × List TOCHeading
  | rest, root =>
    if d ≤ top.1.depth then
      match rest with
      | [] => ([], root ++ [closeEntry top])
      | (g, gcs) :: rs => popHeadingStack d (g, gcs ++ [closeEntry top]) rs root
    else (top :: rest, root)

/-- One step of buildHeadingTree: pop the stack while its top has depth at
    least the incoming depth, then push the incoming heading with no children
    yet. -/
def buildHeadingStep (st : List HeadingStackEntry × List TOCHeading) (h : FlatHeading) :
    List HeadingStackEntry × List TOCHeading :=
  match st.1 with
  | [] => ([(h, [])], st.2)
  | top :: rest =>
    let (stack, root) := popHeadingStack h.depth top rest st.2
    ((h, []) :: stack, root)

/-- Closing of all remaining stack entries at the end of the scan. -/
def closeHeadingStack (top : HeadingStackEntry) :
    List HeadingStackEntry → List TOCHeading → List TOCHeading
  | rest, root =>
    match rest with
    | [] => root ++ [closeEntry top]
    | (g, gcs) :: rs => closeHeadingStack (g, gcs ++ [closeEntry top]) rs root

/-- buildHeadingTree from src/src/lib/content.ts, as the single-pass stack
    algorithm with the mutable stack rendered as explicit open entries. -/
def buildHeadingTree (hs : List FlatHeading) : List TOCHeading :=
  match hs.foldl buildHeadingStep ([], []) with
  | ([], root) => root
  | (top :: rest, root) => closeHeadingStack top rest root

/-- extractHeadings from src/src/lib/content.ts: scan, then tree building. -/
def extractHeadings (md : String) : List TOCHeading :=
  buildHeadingTree (extractFlatHeadings md)

/-- Pointwise image of the whitespace class under the hyphen replacement. -/
def wsToHyphenChar (c : Char) : Char := if isJsWhitespace c then '-' else c

/-- Whether a character list starts with a hyphen. -/
def headIsHyphen : List Char → Bool
  | [] => false
  | c :: _ => c == '-'

/-- Whether a character list contains two adjacent hyphens. -/
def hasAdjHyphen : List Char → Bool
  | [] => false
  | c :: t => (c == '-' && headIsHyphen t) || hasAdjHyphen t

/-- The amended canonical slug: lowercase, strip characters outside the kept
    class, map each whitespace character to a hyphen, collapse hyphen runs to
    single hyphens, trim leading and trailing hyphens. -/
def amendedSlugList (l : List Char) : List Char :=
  dropTrailingHyphens
    ((collapseHyphensAux false
        (((l.map jsToLowerChar).filter isSlugKeep).map wsToHyphenChar)).dropWhile (· = '-'))

/-- String form of the amended canonical slug. -/
def amendedSlug (s : String) : String := String.mk (amendedSlugList s.data)

/-- Structured data, the parse result of a fetched manifest payload. -/
inductive Json where
  | null
  | bool (b : Bool)
  | num (n : Int)
  | str (s : String)
  | arr (elems : List Json)
  | obj (fields : List (String × Json))

/-- A value held by the session-storage cache. Entries are stored as
    serialized structures; the serialization round trip is modelled as the
    identity on these typed values. -/
inductive CacheValue where
  | manifestEntry (data : Json) (timestamp : Nat)
  | lessonEntry (content : String) (timestamp : Nat) (headings : List TOCHeading)

/-- The session-storage state, an association list keyed by storage key. -/
def Store : Type := List (String × CacheValue)

/-- Reading a key from storage; the first binding wins. -/
def storeGet : Store → String → Option CacheValue
  | [], _ => none
  | (k, v) :: t, key => if k = key then some v else storeGet t key

/-- Writing a key to storage. Overwriting is modelled by prepending the new
    binding, which shadows any older one under storeGet. -/
def storeSet (s : Store) (k : String) (v : CacheValue) : Store :=
  (k, v) :: s

/-- Cache key of the manifest (MANIFEST_CACHE_KEY in src/src/lib/content.ts). -/
def MANIFEST_CACHE_KEY : String := "content-manifest"

/-- Cache key of a lesson, the lesson cache marker followed by the slug. -/
def lessonCacheKey (slug : String) : String := "lesson-content-" ++ slug

/-- CACHE_EXPIRY from src/src/lib/content.ts: thirty minutes in milliseconds. -/
def CACHE_EXPIRY : Nat := 1000 * 60 * 30

/-- Causes of a wrapped loader failure. -/
inductive FetchFailure where
  | storageRead
  | storageWrite
  | httpStatus (status : Nat)
  | badJson
  | network

/-- The outcome surfaced by a loader when it throws: either the rethrown
    abort rejection, or a wrapped failure naming the affected resource. -/
inductive LoadErr where
  | abortError
  | failure (resource : String) (cause : FetchFailure)

/-- Result of parsing a response body as structured data. -/
inductive JsonParse where
  | parsed (j : Json)
  | malformed

/-- Network outcome of the manifest fetch, as observed at the await points:
    a response with a parse outcome, a non-success status, an abort of the
    attached signal, or a transport failure. -/
inductive ManifestNet where
  | success (body : JsonParse)
  | failStatus (status : Nat)
  | aborted
  | netFail

/-- Network outcome of a lesson source fetch. -/
inductive LessonNet where
  | success (text : String)
  | failStatus (status : Nat)
  | aborted
  | netFail

/-- LessonContent of src/src/types/content.ts, as returned by the loader. -/
structure LessonContent where
  markdown : String
  headings : List TOCHeading

/-- The network path of fetchContentManifest (cache miss): fetch, check the
    status, parse, cache, return; failures are wrapped, aborts are rethrown.
    The third component records whether a network fetch was performed. -/
def fetchManifestNet (writeFails : Bool) (store : Store) (now : Nat) (resp : ManifestNet) :
    Except LoadErr Json × Store × Bool :=
  match resp with
  | .aborted => (.error .abortError, store, true)
  | .failStatus n => (.error (.failure "content manifest" (.httpStatus n)), store, true)
  | .netFail => (.error (.failure "content manifest" .network), store, true)
  | .success .malformed => (.error (.failure "content manifest" .badJson), store, true)
  | .success (.parsed j) =>
    if writeFails then (.error (.failure "content manifest" .storageWrite), store, true)
    else (.ok j, storeSet store MANIFEST_CACHE_KEY (.manifestEntry j now), true)

/-- fetchContentManifest from src/src/lib/content.ts. A storage read failure
    is caught by the surrounding handler and rethrown wrapped; a cached entry
    with a truthy timestamp within CACHE_EXPIRY is returned with no fetch;
    otherwise the network path runs. The payload is parsed as structured data
    and returned as is: the function performs no shape validation. -/
def fetchContentManifest (readFails writeFails : Bool) (store : Store) (now : Nat)
    (resp : ManifestNet) : Except LoadErr Json × Store × Bool :=
  if readFails then (.error (.failure "content manifest" .storageRead), store, false)
  else
    match storeGet store MANIFEST_CACHE_KEY with
    | some (.manifestEntry data ts) =>
      if 0 < ts ∧ now - ts < CACHE_EXPIRY then (.ok data, store, false)
      else fetchManifestNet writeFails store now resp
    | _ => fetchManifestNet writeFails store now resp

/-- Lesson descriptor from the manifest (Lesson of src/src/types/content.ts,
    required fields). -/
structure Lesson where
  order : Nat
  slug : String
  title : String
  description : String
  mdPath : String
deriving Repr, DecidableEq

/-- The network path of fetchLessonContent (cache miss): fetch, check the
    status, read the text, extract the headings, cache, return. -/
def fetchLessonNet (writeFails : Bool) (store : Store) (now : Nat) (lesson : Lesson)
    (resp : LessonNet) : Except LoadErr LessonContent × Store × Bool :=
  match resp with
  | .aborted => (.error .abortError, store, true)
  | .failStatus n => (.error (.failure lesson.title (.httpStatus n)), store, true)
  | .netFail => (.error (.failure lesson.title .network), store, true)
  | .success md =>
    let headings := extractHeadings md
    if writeFails then (.error (.failure lesson.title .storageWrite), store, true)
    else (.ok ⟨md, headings⟩, storeSet store (lessonCacheKey lesson.slug) (.lessonEntry md now headings), true)

/-- fetchLessonContent from src/src/lib/content.ts. -/
def fetchLessonContent (readFails writeFails : Bool) (store : Store) (now : Nat)
    (lesson : Lesson) (resp : LessonNet) : Except LoadErr LessonContent × Store × Bool :=
  if readFails then (.error (.failure lesson.title .storageRead), store, false)
  else
    match storeGet store (lessonCacheKey lesson.slug) with
    | some (.lessonEntry content ts headings) =>
      if 0 < ts ∧ now - ts < CACHE_EXPIRY then (.ok ⟨content, headings⟩, store, false)
      else fetchLessonNet writeFails store now lesson resp
    | _ => fetchLessonNet writeFails store now lesson resp

/-- Field lookup in a structured object; non-objects have no fields. -/
def jfield : Json → String → Option Json
  | .obj fields, k => jlookup fields k
  | _, _ => none
where
  jlookup : List (String × Json) → String → Option Json
  | [], _ => none
  | (k', v) :: t, k => if k' = k then some v else jlookup t k

/-- Whether a field of an object is present and a string. -/
def isStringField (j : Json) (k : String) : Bool :=
  match jfield j k with
  | some (.str _) => true
  | _ => false

/-- The slug field of a lesson entry, when present and a string. -/
def entrySlug (j : Json) : Option String :=
  match jfield j "slug" with
  | some (.str s) => some s
  | _ => none

/-- The order field of a lesson entry, when present and a number. -/
def entryOrder (j : Json) : Option Int :=
  match jfield j "order" with
  | some (.num n) => some n
  | _ => none

/-- Whether a list has pairwise distinct elements. -/
def pairwiseDistinct [BEq α] : List α → Bool
  | [] => true
  | x :: t => !(t.contains x) && pairwiseDistinct t

/-- Modelled from the spec: the manifest shape validation of the
    specification, which is absent from the source. A valid payload has a
    course object with the required string fields and a lessons sequence in
    which every entry has a slug and an order, and slugs and orders are
    unique. -/
def validManifestShape (j : Json) : Bool :=
  match jfield j "course", jfield j "lessons" with
  | some course, some (.arr lessons) =>
    isStringField course "title" && isStringField course "tagline" &&
    isStringField course "description" && isStringField course "coverImage" &&
    lessons.all (fun e => (entrySlug e).isSome && (entryOrder e).isSome) &&
    pairwiseDistinct (lessons.filterMap entrySlug) &&
    pairwiseDistinct (lessons.filterMap entryOrder)
  | _, _ => false

/-- The component state of the Lesson route touched by its content effect. -/
structure LessonViewState where
  lessonContent : Option LessonContent
  contentError : Option LoadErr
  contentLoading : Bool

/-- The opening statements of loadContent in src/src/routes/Lesson.tsx:
    loading is set and any previous error is cleared. -/
def startLoad (s : LessonViewState) : LessonViewState :=
  { s with contentLoading := true, contentError := none }

/-- The resolution of loadContent in src/src/routes/Lesson.tsx: a resolved
    fetch stores the content; a rejected fetch stores the error unless it is
    the abort rejection, which is silently ignored; loading always ends. -/
def finishLoad (s : LessonViewState) : Except LoadErr LessonContent → LessonViewState
  | .ok c => { s with lessonContent := some c, contentLoading := false }
  | .error .abortError => { s with contentLoading := false }
  | .error e => { s with contentError := some e, contentLoading := false }

/-- Course of src/src/types/content.ts. -/
structure Course where
  title : String
  tagline : String
  description : String
  coverImage : String
deriving Repr, DecidableEq

/-- ContentManifest of src/src/types/content.ts. -/
structure ContentManifest where
  course : Course
  lessons : List Lesson
deriving Repr, DecidableEq

/-- The index scan of the array findIndex call, counting from a start index. -/
def findLessonIndexAux (slug : String) : List Lesson → Nat → Option Nat
  | [], _ => none
  | l :: t, i => if l.slug = slug then some i else findLessonIndexAux slug t (i + 1)

/-- The first index of a lesson with the given slug, none when absent. -/
def findLessonIndex (ls : List Lesson) (slug : String) : Option Nat :=
  findLessonIndexAux slug ls 0

/-- A previous or next link of the lesson navigation: slug and title. -/
structure NavLink where
  slug : String
  title : String
deriving Repr, DecidableEq

/-- The navigation pair returned by getLessonNavigation. -/
structure LessonNavigation where
  previous : Option NavLink
  next : Option NavLink
deriving Repr, DecidableEq

/-- getLessonNavigation from src/src/lib/content.ts. -/
def getLessonNavigation (m : ContentManifest) (currentSlug : String) : LessonNavigation :=
  match findLessonIndex m.lessons currentSlug with
  | none => ⟨none, none⟩
  | some i =>
    let previous :=
      if 0 < i then (m.lessons.get? (i - 1)).map (fun l => NavLink.mk l.slug l.title) else none
    let next :=
      if i < m.lessons.length - 1 then (m.lessons.get? (i + 1)).map (fun l => NavLink.mk l.slug l.title)
      else none
    ⟨previous, next⟩

/-- Markup escaping of a character in a serialized text node. -/
def escapeHtmlChar (c : Char) : List Char :=
  if c = '&' then "&amp;".data
  else if c = '<' then "&lt;".data
  else if c = '>' then "&gt;".data
  else [c]

/-- Markup escaping of a text value. -/
def escapeHtml (l : List Char) : List Char :=
  (l.map escapeHtmlChar).flatten

/-- An inline node of the restricted rendering tree. -/
inductive HtmlInline where
  | text (s : String)

/-- A block node of the restricted rendering tree: a raw markup node kept
    from the source, or an element with inline children. -/
inductive HtmlNode where
  | raw (s : String)
  | element (tag : String) (inlines : List HtmlInline)

/-- Serialization of an inline node: text values are escaped. -/
def serializeInline : HtmlInline → List Char
  | .text s => escapeHtml s.data

/-- Serialization of a block node with the allowDangerousHtml option of the
    stringify stage: raw nodes are emitted verbatim when the option is set
    and escaped otherwise; elements emit their tags around their children. -/
def serializeNode (dangerous : Bool) : HtmlNode → List Char
  | .raw s => if dangerous then s.data else escapeHtml s.data
  | .element tag inlines =>
    '<' :: tag.data ++ '>' :: ((inlines.map serializeInline).flatten ++ ('<' :: '/' :: tag.data ++ ['>']))

/-- Serialization of the tree root: block nodes separated by newlines. -/
def serializeHtml (dangerous : Bool) (ns : List HtmlNode) : List Char :=
  List.intercalate ['\n'] (ns.map (serializeNode dangerous))

/-- Whether a line is blank for block separation. -/
def isBlankLine (l : List Char) : Bool :=
  l.all (fun c => c = ' ' || c = '\t')

/-- Grouping of consecutive non-blank lines into blocks. -/
def groupLinesAux (current : List (List Char)) : List (List Char) → List (List (List Char))
  | [] => if current.isEmpty then [] else [current.reverse]
  | l :: ls =>
    if isBlankLine l then
      if current.isEmpty then groupLinesAux [] ls else current.reverse :: groupLinesAux [] ls
    else groupLinesAux (l :: current) ls

/-- Whether a line opens a raw markup block: an angle bracket followed by a
    tag name character, a closing slash, a declaration or an instruction. -/
def htmlBlockStart (l : List Char) : Bool :=
  match l with
  | '<' :: c :: _ => c.isAlpha || c = '/' || c = '!' || c = '?'
  | _ => false

/-- The parse and transform stages of the render pipeline of the
    MarkdownRenderer component, restricted to raw markup blocks and plain
    paragraphs (the configured heading, autolink and code stages do not act
    on these blocks). With the allowDangerousHtml option of the tree stage a
    raw markup block is kept as a raw node; without it the block is dropped.
    A paragraph becomes an element with its joined lines as one text child. -/
def blockToNodes (dangerous : Bool) (block : List (List Char)) : List HtmlNode :=
  match block with
  | [] => []
  | first :: _ =>
    if htmlBlockStart first then
      if dangerous then [.raw (String.mk (List.intercalate ['\n'] block))] else []
    else [.element "p" [.text (String.mk (List.intercalate ['\n'] block))]]

/-- The rendering tree of a source text under the restricted pipeline. -/
def markdownToHtmlNodes (dangerous : Bool) (md : String) : List HtmlNode :=
  ((groupLinesAux [] (splitOnNl md.data)).map (blockToNodes dangerous)).flatten

/-- Whether a pattern occurs at the head of a character list. -/
def startsWithChars : List Char → List Char → Bool
  | [], _ => true
  | _ :: _, [] => false
  | p :: ps, c :: cs => p = c && startsWithChars ps cs

/-- Whether a pattern occurs anywhere in a character list. -/
def occursIn (needle : List Char) : List Char → Bool
  | [] => startsWithChars needle []
  | c :: t => startsWithChars needle (c :: t) || occursIn needle t

/-- The copy button markup inserted into matched code blocks by the
    post-processing rewrite of the MarkdownRenderer component. -/
def copyButtonHtml : String :=
  "<button class=\"copy-button\" type=\"button\" title=\"Copy to clipboard\" aria-label=\"Copy code to clipboard\"><svg class=\"w-4 h-4\" fill=\"none\" stroke=\"currentColor\" viewBox=\"0 0 24 24\"><path stroke-linecap=\"round\" stroke-linejoin=\"round\" stroke-width=\"2\" d=\"M8 16H6a2 2 0 01-2-2V6a2 2 0 012-2h8a2 2 0 012 2v2m-6 12h8a2 2 0 002-2v-8a2 2 0 00-2-2h-8a2 2 0 00-2 2v8a2 2 0 002 2z\"></path></svg></button>"

/-- Insertion of the copy button right after the next closing angle bracket. -/
def insertButtonAfterGt : List Char → List Char
  | [] => []
  | '>' :: rest => '>' :: (copyButtonHtml.data ++ rest)
  | c :: rest => c :: insertButtonAfterGt rest

/-- Insertion of the copy button inside the first pre opening tag. -/
def insertCopyButton : List Char → List Char
  | [] => []
  | c :: t =>
    if startsWithChars "<pre".data (c :: t) then c :: insertButtonAfterGt t
    else c :: insertCopyButton t

/-- The post-processing rewrite of the MarkdownRenderer component, which
    inserts a copy button inside matched code blocks and leaves markup
    without such blocks unchanged. -/
def addCopyButtons (html : List Char) : List Char :=
  if occursIn "<pre".data html then insertCopyButton html else html

/-- processMarkdown of the MarkdownRenderer component: the configured
    pipeline with the allowDangerousHtml option set in both the tree stage
    and the stringify stage, followed by the copy-button rewrite. -/
def processMarkdown (md : String) : String :=
  String.mk (addCopyButtons (serializeHtml true (markdownToHtmlNodes true md)))

/-! Lemmas about the slug passes. -/

theorem collapseWs_cons_ws (b : Bool) (c : Char) (x : List Char) (h : isJsWhitespace c = true) :
    collapseWsAux b (c :: x) =
      if b then collapseWsAux true x else '-' :: collapseWsAux true x := by
  simp [collapseWsAux, h]

theorem collapseWs_cons_notws (b : Bool) (c : Char) (x : List Char) (h : ¬ isJsWhitespace c = true) :
    collapseWsAux b (c :: x) = c :: collapseWsAux false x := by
  simp [collapseWsAux, h]

theorem collapseH_cons_hyphen (b : Bool) (x : List Char) :
    collapseHyphensAux b ('-' :: x) =
      if b then collapseHyphensAux true x else '-' :: collapseHyphensAux true x := by
  simp [collapseHyphensAux]

theorem collapseH_cons_ne (b : Bool) (c : Char) (x : List Char) (h : ¬ c = '-') :
    collapseHyphensAux b (c :: x) = c :: collapseHyphensAux false x := by
  simp [collapseHyphensAux, h]

theorem collapseH_collapseWs (l : List Char) : ∀ b b' : Bool, (b' = true → b = true) →
    collapseHyphensAux b (collapseWsAux b' l) = collapseHyphensAux b (l.map wsToHyphenChar) := by
  induction l with
  | nil => intro b b' _; rfl
  | cons c cs ih =>
    intro b b' hbb
    by_cases hws : isJsWhitespace c = true
    · have hmap : wsToHyphenChar c = '-' := by simp [wsToHyphenChar, hws]
      rw [List.map_cons, hmap, collapseWs_cons_ws _ _ _ hws]
      cases b' with
      | true =>
        have hb := hbb rfl; subst hb
        rw [if_pos rfl, collapseH_cons_hyphen, if_pos rfl]
        exact ih true true (fun h => h)
      | false =>
        rw [if_neg (by simp), collapseH_cons_hyphen, collapseH_cons_hyphen]
        cases b with
        | true => rw [if_pos rfl, if_pos rfl]; exact ih true true (fun h => h)
        | false =>
          rw [if_neg (by simp), if_neg (by simp)]
          exact congrArg (('-' :: ·)) (ih true true (fun h => h))
    · have hmap : wsToHyphenChar c = c := by simp [wsToHyphenChar, hws]
      rw [List.map_cons, hmap, collapseWs_cons_notws _ _ _ hws]
      by_cases hc : c = '-'
      · subst hc
        rw [collapseH_cons_hyphen, collapseH_cons_hyphen]
        cases b with
        | true => rw [if_pos rfl, if_pos rfl]; exact ih true false (fun h => by cases h)
        | false =>
          rw [if_neg (by simp), if_neg (by simp)]
          exact congrArg (('-' :: ·)) (ih true false (fun h => by cases h))
      · rw [collapseH_cons_ne _ _ _ hc, collapseH_cons_ne _ _ _ hc]
        exact congrArg ((c :: ·)) (ih false false (fun h => h))

theorem headIsHyphen_collapseH_true (l : List Char) :
    headIsHyphen (collapseHyphensAux true l) = false := by
  induction l with
  | nil => rfl
  | cons c cs ih =>
    by_cases hc : c = '-'
    · subst hc; rw [collapseH_cons_hyphen, if_pos rfl]; exact ih
    · rw [collapseH_cons_ne _ _ _ hc]; simp [headIsHyphen, hc]

theorem hasAdjHyphen_collapseH (l : List Char) : ∀ b : Bool,
    hasAdjHyphen (collapseHyphensAux b l) = false := by
  induction l with
  | nil => intro b; rfl
  | cons c cs ih =>
    intro b
    by_cases hc : c = '-'
    · subst hc
      rw [collapseH_cons_hyphen]
      cases b with
      | true => rw [if_pos rfl]; exact ih true
      | false =>
        rw [if_neg (by simp)]
        simp [hasAdjHyphen, headIsHyphen_collapseH_true, ih true]
    · rw [collapseH_cons_ne _ _ _ hc]
      simp [hasAdjHyphen, hc, ih false]

theorem collapseH_of_noAdj (l : List Char) : ∀ b : Bool, hasAdjHyphen l = false →
    (b = true → headIsHyphen l = false) → collapseHyphensAux b l = l := by
  induction l with
  | nil => intro b _ _; rfl
  | cons c cs ih =>
    intro b hAdj hHead
    by_cases hc : c = '-'
    · subst hc
      have hb : b = false := by
        cases b with
        | true => have := hHead rfl; simp [headIsHyphen] at this
        | false => rfl
      subst hb
      rw [collapseH_cons_hyphen, if_neg (by simp)]
      have h1 : headIsHyphen cs = false := by
        simp [hasAdjHyphen] at hAdj; exact hAdj.1
      have h2 : hasAdjHyphen cs = false := by
        simp [hasAdjHyphen] at hAdj; exact hAdj.2
      rw [ih true h2 (fun _ => h1)]
    · rw [collapseH_cons_ne _ _ _ hc]
      have h2 : hasAdjHyphen cs = false := by
        simp [hasAdjHyphen, hc] at hAdj; exact hAdj
      rw [ih false h2 (fun h => by cases h)]

theorem dropTrailingHyphens_eq_nil (l : List Char) :
    dropTrailingHyphens l = [] → ∀ c ∈ l, c = '-' := by
  induction l with
  | nil => intro _ c hc; cases hc
  | cons c cs ih =>
    intro h d hd
    rw [dropTrailingHyphens] at h
    cases hcs : dropTrailingHyphens cs with
    | nil =>
      rw [hcs] at h
      by_cases hc : c = '-'
      · cases hd with
        | head => exact hc
        | tail _ hmem => exact ih hcs d hmem
      · rw [if_neg hc] at h; cases h
    | cons r rs => rw [hcs] at h; cases h

theorem removeOneTrailing_of_noAdj (l : List Char) : hasAdjHyphen l = false →
    removeOneTrailingHyphen l = dropTrailingHyphens l := by
  induction l with
  | nil => intro _; rfl
  | cons c cs ih =>
    intro hAdj
    cases cs with
    | nil => rfl
    | cons d ds =>
      have hAdjTail : hasAdjHyphen (d :: ds) = false := by
        simp [hasAdjHyphen] at hAdj ⊢
        exact ⟨hAdj.2.1, hAdj.2.2⟩
      rw [removeOneTrailingHyphen, dropTrailingHyphens, ih hAdjTail]
      cases hdrop : dropTrailingHyphens (d :: ds) with
      | nil =>
        have hall := dropTrailingHyphens_eq_nil _ hdrop
        have hd : d = '-' := hall d (by simp)
        cases ds with
        | nil =>
          subst hd
          have hc : ¬ c = '-' := by
            simp [hasAdjHyphen, headIsHyphen] at hAdj
            exact hAdj
          rw [if_neg hc]
        | cons e es =>
          have he : e = '-' := hall e (by simp)
          subst hd he
          simp [hasAdjHyphen, headIsHyphen] at hAdjTail
      | cons r rs => rfl

theorem removeOneLeading_of_noAdj (l : List Char) : hasAdjHyphen l = false →
    removeOneLeadingHyphen l = l.dropWhile (· = '-') := by
  intro hAdj
  cases l with
  | nil => rfl
  | cons c cs =>
    by_cases hc : c = '-'
    · subst hc
      rw [removeOneLeadingHyphen, if_pos rfl]
      have hhead : headIsHyphen cs = false := by
        simp [hasAdjHyphen] at hAdj; exact hAdj.1
      cases cs with
      | nil => rfl
      | cons d ds =>
        have hd : ¬ d = '-' := by simpa [headIsHyphen] using hhead
        simp [List.dropWhile, hd]
    · rw [removeOneLeadingHyphen, if_neg hc]
      simp [List.dropWhile, hc]

theorem hasAdjHyphen_tail (c : Char) (t : List Char) :
    hasAdjHyphen (c :: t) = false → hasAdjHyphen t = false := by
  intro h; simp [hasAdjHyphen] at h; exact h.2

theorem hasAdjHyphen_removeOneLeading (l : List Char) : hasAdjHyphen l = false →
    hasAdjHyphen (removeOneLeadingHyphen l) = false := by
  intro h
  cases l with
  | nil => exact h
  | cons c cs =>
    by_cases hc : c = '-'
    · subst hc; rw [removeOneLeadingHyphen, if_pos rfl]; exact hasAdjHyphen_tail _ _ h
    · rw [removeOneLeadingHyphen, if_neg hc]; exact h

theorem hasAdjHyphen_dropWhile (l : List Char) : hasAdjHyphen l = false →
    hasAdjHyphen (l.dropWhile (· = '-')) = false := by
  intro h
  rw [← removeOneLeading_of_noAdj l h]
  exact hasAdjHyphen_removeOneLeading l h

/-! Claim theorems. -/

/-- C9: buildHeadingTree follows the single-pass stack algorithm; in
    particular, for headings with depths 2, 3, 3, 2, 4 and texts A, B, C, D, E
    it yields the forest with A holding children B and C, and D holding
    child E. -/
theorem c9_buildHeadingTree_example :
    buildHeadingTree
        [⟨"a", 2, "A"⟩, ⟨"b", 3, "B"⟩, ⟨"c", 3, "C"⟩, ⟨"d", 2, "D"⟩, ⟨"e", 4, "E"⟩] =
      [TOCHeading.mk "a" 2 "A" [TOCHeading.mk "b" 3 "B" [], TOCHeading.mk "c" 3 "C" []],
       TOCHeading.mk "d" 2 "D" [TOCHeading.mk "e" 4 "E" []]] := by
  rfl

/-- C3 (code bug): extractHeadings tracks no fence state, so a heading-like
    line lying between code fences is still extracted and returned, contrary
    to the required exclusion. -/
theorem c3_fenced_heading_extracted :
    extractHeadings "```\n## not a heading\n```" =
      [TOCHeading.mk "not-a-heading" 2 "not a heading" []] := by
  rfl

/-- C6 counterexample: on the text a--b the canonical slug of the
    specification keeps the hyphen run while generateHeadingId collapses it,
    so the two disagree. -/
theorem c6_counterexample :
    canonicalSlug "a--b" = "a--b" ∧ generateHeadingId "a--b" = "a-b" ∧
      generateHeadingId "a--b" ≠ canonicalSlug "a--b" :=
  ⟨rfl, rfl, by decide⟩

/-- C6 (amended): generateHeadingId equals the canonical slug function
    extended with one further pass, the collapsing of hyphen runs to single
    hyphens: lowercase, strip, map whitespace to hyphens, collapse hyphen
    runs, trim leading and trailing hyphens. -/
theorem c6_generateHeadingId_amended (s : String) : generateHeadingId s = amendedSlug s := by
  unfold generateHeadingId amendedSlug generateHeadingIdList amendedSlugList trimHyphenEnds
  have hM := hasAdjHyphen_collapseH
    (((s.data.map jsToLowerChar).filter isSlugKeep).map wsToHyphenChar) false
  rw [collapseH_collapseWs _ false false (fun h => h)]
  rw [removeOneLeading_of_noAdj _ hM]
  rw [removeOneTrailing_of_noAdj _ (hasAdjHyphen_dropWhile _ hM)]

/-- C5 counterexample: on the heading text x--y the extractor id differs from
    the canonical slug of the pipeline's heading-id stage as specified. -/
theorem c5_counterexample : generateHeadingId "x--y" ≠ canonicalSlug "x--y" := by
  decide

/-- C5 (amended): the extractor id and the canonical slug of the pipeline's
    heading-id stage agree on every heading text whose stripped,
    whitespace-collapsed form contains no adjacent hyphens; on texts with
    hyphen runs the extractor collapses the run while the canonical slug
    keeps it. -/
theorem c5_extractor_pipeline_agreement (t : String)
    (h : hasAdjHyphen (collapseWsAux false ((t.data.map jsToLowerChar).filter isSlugKeep)) = false) :
    generateHeadingId t = canonicalSlug t := by
  unfold generateHeadingId canonicalSlug generateHeadingIdList canonicalSlugList trimHyphenEnds
  rw [collapseH_of_noAdj _ false h (fun hb => by cases hb)]
  rw [removeOneLeading_of_noAdj _ h]
  rw [removeOneTrailing_of_noAdj _ (hasAdjHyphen_dropWhile _ h)]

/-- C5 witness: the agreement theorem applied to a concrete heading text. -/
theorem c5_extractor_pipeline_agreement_witness :
    hasAdjHyphen
        (collapseWsAux false ((("Hello World").data.map jsToLowerChar).filter isSlugKeep)) = false ∧
      generateHeadingId "Hello World" = canonicalSlug "Hello World" :=
  ⟨by decide, c5_extractor_pipeline_agreement "Hello World" (by decide)⟩

/-- C1 (code bug): with the allowDangerousHtml option set in both the tree
    stage and the stringify stage and no sanitizing stage, the configured
    pipeline passes a raw script tag in the source through verbatim, so the
    output markup contains an executable script tag. -/
theorem c1_script_passthrough :
    processMarkdown "<script>alert(1)</script>" = "<script>alert(1)</script>" ∧
      occursIn "<script>".data (processMarkdown "<script>alert(1)</script>").data = true :=
  ⟨rfl, rfl⟩

/-- C4 counterexample: a payload violating the required manifest shape is
    returned as a success and written to the cache, with no validation
    failure raised. -/
theorem c4_counterexample :
    validManifestShape (Json.obj []) = false ∧
      fetchContentManifest false false [] 7 (.success (.parsed (Json.obj []))) =
        (.ok (Json.obj []), [(MANIFEST_CACHE_KEY, CacheValue.manifestEntry (Json.obj []) 7)], true) :=
  ⟨rfl, rfl⟩

/-- C4 (amended): on a manifest cache miss the loader parses the payload as
    structured data and returns and caches it without any shape validation;
    only a malformed payload or a non-success response raises a wrapped
    error, and neither is cached. -/
theorem c4_no_validation (store : Store) (now : Nat) (j : Json)
    (hmiss : storeGet store MANIFEST_CACHE_KEY = none) :
    fetchContentManifest false false store now (.success (.parsed j)) =
        (.ok j, storeSet store MANIFEST_CACHE_KEY (.manifestEntry j now), true) ∧
      fetchContentManifest false false store now (.success .malformed) =
        (.error (.failure "content manifest" .badJson), store, true) ∧
      ∀ n, fetchContentManifest false false store now (.failStatus n) =
        (.error (.failure "content manifest" (.httpStatus n)), store, true) := by
  refine ⟨?_, ?_, ?_⟩ <;> simp [fetchContentManifest, hmiss, fetchManifestNet]

/-- C4 witness: the amended behaviour at a concrete shapeless payload. -/
theorem c4_no_validation_witness :
    storeGet [] MANIFEST_CACHE_KEY = none ∧
      fetchContentManifest false false [] 1 (.success (.parsed Json.null)) =
        (.ok Json.null, storeSet [] MANIFEST_CACHE_KEY (.manifestEntry Json.null 1), true) :=
  ⟨rfl, (c4_no_validation [] 1 Json.null rfl).1⟩

/-- C7 counterexample: when the storage read throws, the manifest loader
    fails with a wrapped storage error instead of succeeding through a
    volatile fallback. -/
theorem c7_counterexample :
    fetchContentManifest true false [] 5 (.success (.parsed Json.null)) =
      (.error (.failure "content manifest" .storageRead), [], false) :=
  rfl

/-- C7 (amended): when the backing storage throws on read or on write, both
    loaders propagate a wrapped storage error to their caller and cache
    nothing; no volatile in-process fallback exists, and a write failure
    fails the call even though the network fetch succeeded. -/
theorem c7_storage_failure_propagates :
    (∀ (store : Store) (now : Nat) (resp : ManifestNet),
        fetchContentManifest true false store now resp =
          (.error (.failure "content manifest" .storageRead), store, false)) ∧
      (∀ (store : Store) (now : Nat) (j : Json), storeGet store MANIFEST_CACHE_KEY = none →
          fetchContentManifest false true store now (.success (.parsed j)) =
            (.error (.failure "content manifest" .storageWrite), store, true)) ∧
      (∀ (store : Store) (now : Nat) (lesson : Lesson) (resp : LessonNet),
          fetchLessonContent true false store now lesson resp =
            (.error (.failure lesson.title .storageRead), store, false)) ∧
      (∀ (store : Store) (now : Nat) (lesson : Lesson) (md : String),
          storeGet store (lessonCacheKey lesson.slug) = none →
          fetchLessonContent false true store now lesson (.success md) =
            (.error (.failure lesson.title .storageWrite), store, true)) := by
  refine ⟨fun store now resp => ?_, fun store now j hmiss => ?_,
    fun store now lesson resp => ?_, fun store now lesson md hmiss => ?_⟩
  · simp [fetchContentManifest]
  · simp [fetchContentManifest, hmiss, fetchManifestNet]
  · simp [fetchLessonContent]
  · simp [fetchLessonContent, hmiss, fetchLessonNet]

/-- C7 witness: the amended behaviour at concrete storage failures. -/
theorem c7_storage_failure_propagates_witness :
    fetchContentManifest false true [] 3 (.success (.parsed Json.null)) =
        (.error (.failure "content manifest" .storageWrite), [], true) ∧
      fetchLessonContent false true [] 3 ⟨1, "intro", "Intro", "d", "/l.md"⟩ (.success "x") =
        (.error (.failure "Intro" .storageWrite), [], true) :=
  ⟨c7_storage_failure_propagates.2.1 [] 3 Json.null rfl,
   c7_storage_failure_propagates.2.2.2 [] 3 ⟨1, "intro", "Intro", "d", "/l.md"⟩ "x" rfl⟩

/-- C8: the cache time to live is fixed at thirty minutes; a cached lesson
    entry read strictly before its expiry is returned unchanged with no
    fetch and no store change, regardless of the network; a read at or after
    expiry behaves as a miss and performs a fresh fetch. The positivity
    hypothesis reflects that stored timestamps are clock readings taken at
    write time, which the truthiness check of the source presumes. -/
theorem c8_cache_ttl :
    CACHE_EXPIRY = 1000 * 60 * 30 ∧
      ∀ (store : Store) (now : Nat) (lesson : Lesson) (content : String) (ts : Nat)
        (headings : List TOCHeading) (resp : LessonNet),
        storeGet store (lessonCacheKey lesson.slug) = some (.lessonEntry content ts headings) →
        0 < ts →
        (now - ts < CACHE_EXPIRY →
            fetchLessonContent false false store now lesson resp =
              (.ok ⟨content, headings⟩, store, false)) ∧
          (CACHE_EXPIRY ≤ now - ts →
            (fetchLessonContent false false store now lesson resp).2.2 = true) := by
  refine ⟨rfl, ?_⟩
  intro store now lesson content ts headings resp hget hts
  constructor
  · intro hlt
    simp [fetchLessonContent, hget, hts, hlt]
  · intro hge
    have hnot : ¬ (0 < ts ∧ now - ts < CACHE_EXPIRY) := fun h => absurd h.2 (not_lt.mpr hge)
    simp only [fetchLessonContent, Bool.false_eq_true, if_false, hget, hnot]
    cases resp <;> simp [fetchLessonNet]

/-- C8 witness: the cache behaviour at a concrete entry, before and after
    expiry. -/
theorem c8_cache_ttl_witness :
    storeGet [(lessonCacheKey "intro", CacheValue.lessonEntry "md" 5 [])]
        (lessonCacheKey "intro") = some (.lessonEntry "md" 5 []) ∧
      fetchLessonContent false false [(lessonCacheKey "intro", .lessonEntry "md" 5 [])] 10
          ⟨1, "intro", "Intro", "d", "/l.md"⟩ .netFail =
        (.ok ⟨"md", []⟩, [(lessonCacheKey "intro", .lessonEntry "md" 5 [])], false) ∧
      (fetchLessonContent false false [(lessonCacheKey "intro", .lessonEntry "md" 5 [])] 1800005
          ⟨1, "intro", "Intro", "d", "/l.md"⟩ .netFail).2.2 = true := by
  have h := c8_cache_ttl.2 [(lessonCacheKey "intro", .lessonEntry "md" 5 [])] 10
    ⟨1, "intro", "Intro", "d", "/l.md"⟩ "md" 5 [] .netFail rfl (by decide)
  have h2 := c8_cache_ttl.2 [(lessonCacheKey "intro", .lessonEntry "md" 5 [])] 1800005
    ⟨1, "intro", "Intro", "d", "/l.md"⟩ "md" 5 [] .netFail rfl (by decide)
  exact ⟨rfl, h.1 (by decide), h2.2 (by decide)⟩

/-- C2: with the fetch for a slug in flight on a cache miss, an abort of the
    first call writes nothing to the store and rejects with the abort
    rejection, which the route effect silently ignores, surfacing no error;
    a second call for the same slug resolves with the fetched content, so
    exactly one resolved outcome is observable and the final view state holds
    that content with no error. -/
theorem c2_cancellation (store : Store) (now1 now2 : Nat) (lesson : Lesson) (md : String)
    (st : LessonViewState)
    (hmiss : storeGet store (lessonCacheKey lesson.slug) = none) :
    (fetchLessonContent false false store now1 lesson .aborted).2.1 = store ∧
      (fetchLessonContent false false store now1 lesson .aborted).1 = .error .abortError ∧
      (fetchLessonContent false false store now2 lesson (.success md)).1 =
        .ok ⟨md, extractHeadings md⟩ ∧
      (finishLoad (startLoad (startLoad st))
          (fetchLessonContent false false store now1 lesson .aborted).1).contentError = none ∧
      (finishLoad (finishLoad (startLoad (startLoad st))
            (fetchLessonContent false false store now1 lesson .aborted).1)
          (fetchLessonContent false false store now2 lesson (.success md)).1).lessonContent =
        some ⟨md, extractHeadings md⟩ ∧
      (finishLoad (finishLoad (startLoad (startLoad st))
            (fetchLessonContent false false store now1 lesson .aborted).1)
          (fetchLessonContent false false store now2 lesson (.success md)).1).contentError =
        none := by
  have h1 : fetchLessonContent false false store now1 lesson .aborted =
      (.error .abortError, store, true) := by
    simp [fetchLessonContent, hmiss, fetchLessonNet]
  have h2 : fetchLessonContent false false store now2 lesson (.success md) =
      (.ok ⟨md, extractHeadings md⟩,
        storeSet store (lessonCacheKey lesson.slug) (.lessonEntry md now2 (extractHeadings md)),
        true) := by
    simp [fetchLessonContent, hmiss, fetchLessonNet]
  rw [h1, h2]
  simp [startLoad, finishLoad]

/-- C2 witness: the cancellation scenario at a concrete lesson and source. -/
theorem c2_cancellation_witness :
    (fetchLessonContent false false [] 1 ⟨1, "intro", "Intro", "d", "/l.md"⟩ .aborted).2.1 = [] ∧
      (finishLoad (finishLoad (startLoad (startLoad ⟨none, none, false⟩))
            (fetchLessonContent false false [] 1 ⟨1, "intro", "Intro", "d", "/l.md"⟩ .aborted).1)
          (fetchLessonContent false false [] 2 ⟨1, "intro", "Intro", "d", "/l.md"⟩
              (.success "## T")).1).lessonContent =
        some ⟨"## T", extractHeadings "## T"⟩ := by
  have h := c2_cancellation [] 1 2 ⟨1, "intro", "Intro", "d", "/l.md"⟩ "## T"
    ⟨none, none, false⟩ rfl
  exact ⟨h.1, h.2.2.2.2.1⟩

theorem findLessonIndexAux_none_iff (slug : String) :
    ∀ (ls : List Lesson) (n : Nat),
      findLessonIndexAux slug ls n = none ↔ ∀ l ∈ ls, l.slug ≠ slug := by
  intro ls
  induction ls with
  | nil => intro n; simp [findLessonIndexAux]
  | cons l t ih =>
    intro n
    by_cases h : l.slug = slug
    · simp [findLessonIndexAux, h]
    · simp [findLessonIndexAux, h, ih (n + 1)]

theorem findLessonIndexAux_bounds (slug : String) :
    ∀ (ls : List Lesson) (n i : Nat),
      findLessonIndexAux slug ls n = some i → n ≤ i ∧ i < n + ls.length := by
  intro ls
  induction ls with
  | nil => intro n i h; cases h
  | cons l t ih =>
    intro n i h
    rw [findLessonIndexAux] at h
    by_cases hs : l.slug = slug
    · rw [if_pos hs] at h
      cases h
      simp
    · rw [if_neg hs] at h
      have := ih (n + 1) i h
      constructor
      · omega
      · simp only [List.length_cons]; omega

/-- C10: when no lesson carries the requested slug the navigation is empty;
    otherwise, writing i for the first index carrying the slug, the previous
    link is absent exactly when the lesson is first and the next link is
    absent exactly when it is last, and each link, when present, is the slug
    and title of the adjacent lesson. -/
theorem c10_lesson_navigation (m : ContentManifest) (slug : String) :
    ((∀ l ∈ m.lessons, l.slug ≠ slug) → getLessonNavigation m slug = ⟨none, none⟩) ∧
      ∀ i, findLessonIndex m.lessons slug = some i →
        ((getLessonNavigation m slug).previous = none ↔ i = 0) ∧
          ((getLessonNavigation m slug).next = none ↔ i = m.lessons.length - 1) ∧
          (∀ l, m.lessons.get? (i - 1) = some l → 0 < i →
            (getLessonNavigation m slug).previous = some ⟨l.slug, l.title⟩) ∧
          (∀ l, m.lessons.get? (i + 1) = some l → i < m.lessons.length - 1 →
            (getLessonNavigation m slug).next = some ⟨l.slug, l.title⟩) := by
  constructor
  · intro h
    have hn : findLessonIndex m.lessons slug = none :=
      (findLessonIndexAux_none_iff slug m.lessons 0).mpr h
    simp [getLessonNavigation, hn]
  · intro i hi
    have hlt : i < m.lessons.length := by
      have := findLessonIndexAux_bounds slug m.lessons 0 i hi
      omega
    refine ⟨?_, ?_, ?_, ?_⟩
    · by_cases h0 : 0 < i
      · have hi1 : i - 1 < m.lessons.length := by omega
        obtain ⟨l, hl⟩ : ∃ l, m.lessons.get? (i - 1) = some l := by
          cases hg : m.lessons.get? (i - 1) with
          | none => rw [List.get?_eq_none] at hg; omega
          | some l => exact ⟨l, rfl⟩
        simp [getLessonNavigation, hi, h0, hl]
        omega
      · simp [getLessonNavigation, hi, h0]
        omega
    · by_cases hn : i < m.lessons.length - 1
      · have hi1 : i + 1 < m.lessons.length := by omega
        obtain ⟨l, hl⟩ : ∃ l, m.lessons.get? (i + 1) = some l := by
          cases hg : m.lessons.get? (i + 1) with
          | none => rw [List.get?_eq_none] at hg; omega
          | some l => exact ⟨l, rfl⟩
        simp [getLessonNavigation, hi, hn, hl]
        omega
      · simp [getLessonNavigation, hi, hn]
        omega
    · intro l hl h0
      simp [getLessonNavigation, hi, h0, hl]
      exact ⟨l, by rw [← List.get?_eq_getElem?]; exact hl, rfl, rfl⟩
    · intro l hl hn
      simp [getLessonNavigation, hi, hn, hl]
      exact ⟨l, by rw [← List.get?_eq_getElem?]; exact hl, rfl, rfl⟩

/-- C10 witness: the navigation of the middle lesson of a three-lesson
    manifest links its two neighbours. -/
theorem c10_lesson_navigation_witness :
    (getLessonNavigation
        ⟨⟨"T", "t", "d", "c"⟩,
          [⟨1, "a", "A", "da", "/a"⟩, ⟨2, "b", "B", "db", "/b"⟩, ⟨3, "c", "C", "dc", "/c"⟩]⟩
        "b").previous = some ⟨"a", "A"⟩ ∧
      (getLessonNavigation
          ⟨⟨"T", "t", "d", "c"⟩,
            [⟨1, "a", "A", "da", "/a"⟩, ⟨2, "b", "B", "db", "/b"⟩, ⟨3, "c", "C", "dc", "/c"⟩]⟩
          "b").next = some ⟨"c", "C"⟩ := by
  have h := (c10_lesson_navigation
    ⟨⟨"T", "t", "d", "c"⟩,
      [⟨1, "a", "A", "da", "/a"⟩, ⟨2, "b", "B", "db", "/b"⟩, ⟨3, "c", "C", "dc", "/c"⟩]⟩
    "b").2 1 rfl
  exact ⟨h.2.2.1 ⟨1, "a", "A", "da", "/a"⟩ rfl (by decide),
    h.2.2.2 ⟨3, "c", "C", "dc", "/c"⟩ rfl (by decide)⟩

end Peegees
